import Mathlib

/-!
Verification of the `easy_claude_code` repository (a tool-augmented
conversational agent) against its natural-language specification.

The development shallowly embeds the Python sources:
  * `easy_cil.py`        — the synchronous single-tool agent (`run_command`);
  * `v1_basic_agent.py`  — the basic agent with four tools;
  * `v2_async_agent.py`  — the asynchronous step-machine agent
    (`safe_path`, `run_bash`, `run_read`, `run_write`, `run_edit`,
    `AsyncAgent.step`, `agent_loop`, `TASKS` / `get_status`).

Python strings are embedded as `List Char`; the filesystem as an
association list from resolved path components to file contents; the
model transport and the shell subprocess as oracles supplied to the
embedded functions.  The tool functions of v1 and v2 are textually
identical, so one embedding covers both.
-/

set_option autoImplicit false

namespace EasyClaudeCode

/-- Python strings, embedded as lists of characters. -/
abbrev Str := List Char

/-- Equality of embedded exception results is decidable, so witnesses can be
checked by evaluation. -/
instance {ε α : Type} [DecidableEq ε] [DecidableEq α] : DecidableEq (Except ε α)
  | Except.ok x, Except.ok y =>
    if h : x = y then Decidable.isTrue (by rw [h])
    else Decidable.isFalse (by intro hc; cases hc; exact h rfl)
  | Except.ok _, Except.error _ => Decidable.isFalse (by intro h; cases h)
  | Except.error _, Except.ok _ => Decidable.isFalse (by intro h; cases h)
  | Except.error x, Except.error y =>
    if h : x = y then Decidable.isTrue (by rw [h])
    else Decidable.isFalse (by intro hc; cases hc; exact h rfl)

/-- Test whether the first list is an initial segment of the second
(supports Python substring search and `Path.is_relative_to`). -/
def startsWith {α : Type} [DecidableEq α] : List α → List α → Bool
  | [], _ => true
  | _ :: _, [] => false
  | a :: as, b :: bs => a = b && startsWith as bs

/-- Index of the first occurrence of `needle` in the haystack, scanning left
to right starting at logical index `i` — the search of Python `str.find`. -/
def findSubGo (needle : Str) : Str → Nat → Option Nat
  | [], i => if startsWith needle [] then some i else none
  | h :: t, i =>
      if startsWith needle (h :: t) then some i else findSubGo needle t (i + 1)

/-- Index of the first occurrence of `needle` in `hay` (Python `str.find`). -/
def findSub (needle hay : Str) : Option Nat :=
  findSubGo needle hay 0

/-- Python substring containment: `needle in hay`. -/
def containsSub (needle hay : Str) : Bool :=
  (findSub needle hay).isSome

/-- Python `str.replace(old, new, 1)`: substitute the first occurrence only. -/
def replaceFirst (content old new : Str) : Str :=
  match findSub old content with
  | none => content
  | some i => content.take i ++ new ++ content.drop (i + old.length)

/-- Python `str.lower()` (the denylists below are ASCII, where Lean's
`Char.toLower` agrees with Python). -/
def toLowerStr (s : Str) : Str :=
  s.map Char.toLower

/-- Python `str.strip()`: drop whitespace from both ends (Lean's
`Char.isWhitespace` covers the whitespace the sources can produce). -/
def stripStr (s : Str) : Str :=
  ((s.dropWhile Char.isWhitespace).reverse.dropWhile Char.isWhitespace).reverse

/-- Collapse the two-character line break `\r\n` and the lone `\r` to `\n`,
the normalization Python text mode and `str.splitlines` apply. -/
def normNewlines : Str → Str
  | [] => []
  | '\r' :: '\n' :: rest => '\n' :: normNewlines rest
  | '\r' :: rest => '\n' :: normNewlines rest
  | c :: rest => c :: normNewlines rest

/-- Split a normalized string at `\n`; a terminator at the very end opens no
further (empty) line, matching Python `str.splitlines`. -/
def splitNLGo (cur : Str) : Str → List Str
  | [] => [cur.reverse]
  | '\n' :: [] => [cur.reverse]
  | '\n' :: c :: rest => cur.reverse :: splitNLGo [] (c :: rest)
  | c :: rest => splitNLGo (c :: cur) rest

/-- Python `str.splitlines()` (over the line breaks `\n`, `\r\n`, `\r`). -/
def splitlines (s : Str) : List Str :=
  match s with
  | [] => []
  | _ => splitNLGo [] (normNewlines s)

/-- Python `"\n".join(lines)`. -/
def joinNL (lines : List Str) : Str :=
  List.intercalate (('\n') :: []) lines

/-- Python `lines[:v]` for an `int` bound `v`: a negative bound counts from
the end, clamped at zero. -/
def pySliceTake (v : Int) {α : Type} (xs : List α) : List α :=
  if 0 ≤ v then xs.take v.toNat else xs.take (xs.length - (-v).toNat)

end EasyClaudeCode

namespace EasyClaudeCode

/-! ### Paths and the filesystem -/

/-- A path argument after `pathlib` parsing: an absolute-path flag plus the
non-empty components (empty components of `a//b` are dropped, as `PurePath`
drops them). -/
structure RawPath where
  absolute : Bool
  comps : List Str
deriving DecidableEq

/-- Split a raw path string at `/`. -/
def splitSlash (p : Str) : List Str :=
  List.splitOn '/' p

/-- Parse a Python path string the way `Path(p)` does. -/
def parsePath (p : Str) : RawPath :=
  { absolute := p.head? = some '/'
  , comps := (splitSlash p).filter (fun c => c ≠ []) }

/-- One step of `Path.resolve()` normalization: `.` and empty components
vanish, `..` removes the last component (the filesystem root absorbs it). -/
def normStep (acc : List Str) (c : Str) : List Str :=
  if c = ('.') :: [] ∨ c = [] then acc
  else if c = ('.') :: ('.') :: [] then acc.dropLast
  else acc ++ [c]

/-- Lexical `Path.resolve()` over absolute components. -/
def resolveComps (cs : List Str) : List Str :=
  cs.foldl normStep []

/-- The absolute components `(WORKDIR / p).resolve()` denotes, given the
(already resolved) components of the working root. -/
def resolvedTarget (workdir : List Str) (p : Str) : List Str :=
  resolveComps ((if (parsePath p).absolute then [] else workdir) ++ (parsePath p).comps)

/-- Embedding of `safe_path` (v1 line 135, v2 line 102): resolve the argument
under `WORKDIR` and reject any result that leaves the working root; the
`ValueError` it raises carries the message `路径越界：{p}`. -/
def safe_path (workdir : List Str) (p : Str) : Except Str (List Str) :=
  if startsWith workdir (resolvedTarget workdir p) then
    Except.ok (resolvedTarget workdir p)
  else
    Except.error ((("路径越界：").data) ++ p)

/-- The filesystem: resolved absolute path components mapped to file
contents.  Directories are implicit (`mkdir` in `run_write` has no
observable effect beyond making the write succeed). -/
abbrev FS := List (List Str × Str)

/-- Read a file (`Path.read_text`); `none` stands for `FileNotFoundError`. -/
def fsRead (fs : FS) (rp : List Str) : Option Str :=
  (fs.find? (fun e => decide (e.1 = rp))).map (fun e => e.2)

/-- Write a file (`Path.write_text`), overwriting any previous content. -/
def fsWrite (fs : FS) (rp : List Str) (content : Str) : FS :=
  (rp, content) :: fs.filter (fun e => decide (e.1 ≠ rp))

end EasyClaudeCode

namespace EasyClaudeCode

/-! ### The v1/v2 tools -/

/-- The v2/v1 `dangerous` denylist of `run_bash` (v2 line 110). -/
def dangerousV2 : List Str :=
  [("rm -rf /").data, ("sudo").data, ("shutdown").data, ("reboot").data, ("> /dev/").data]

/-- The denylist scan of `run_bash`: `any(d in command for d in dangerous)`.
The scan is over the command text exactly as given (no case folding). -/
def v2Matches (command : Str) : Bool :=
  dangerousV2.any (fun d => containsSub d command)

/-- Outcome of `subprocess.run` as an oracle result. -/
structure ExecResult where
  stdout : Str
  stderr : Str
deriving DecidableEq

/-- The three ways the v2 subprocess call can end: normal completion,
`TimeoutExpired`, or some other exception with a message. -/
inductive ExecOutcome
  | ok (r : ExecResult)
  | timeout
  | exc (msg : Str)
deriving DecidableEq

/-- Output shaping of `run_bash` (v2 line 124):
`output[:50000] if output else "(no output)"`. -/
def v2Shape (output : Str) : Str :=
  if output = [] then ("(no output)").data else output.take 50000

/-- Embedding of `run_bash` (v1 line 145, v2 line 109).  The subprocess is an
oracle; the second component records whether a process was spawned. -/
def run_bash (exec : Str → ExecOutcome) (command : Str) : Str × Bool :=
  if v2Matches command then
    ((("Error: 危险命令已拦截").data), false)
  else
    match exec command with
    | ExecOutcome.ok r => (v2Shape (stripStr (r.stdout ++ r.stderr)), true)
    | ExecOutcome.timeout => ((("Error: 命令超时 (60s)").data), true)
    | ExecOutcome.exc m => ((("Error: ").data) ++ m, true)

/-- The truncation marker `run_read` appends when a line limit cuts the file:
`... (还有 {n} 行)`. -/
def omitMarker (n : Int) : Str :=
  (("... (还有 ").data) ++ (toString n).data ++ ((" 行)").data)

/-- Embedding of `run_read` (v1 line 173, v2 line 131): read the file, apply
the optional line limit (`if limit and limit < len(lines)` — Python
truthiness makes `limit = 0` inactive), rejoin with `\n` and cut at 50000
characters.  Failures (path violation, missing file) come back as
`Error: ...` text. -/
def run_read (workdir : List Str) (fs : FS) (path : Str) (limit : Option Int) : Str :=
  match safe_path workdir path with
  | Except.error m => (("Error: ").data) ++ m
  | Except.ok rp =>
    match fsRead fs rp with
    | none => (("Error: [Errno 2] No such file or directory: ").data) ++ path
    | some text =>
      let lines := splitlines text
      let lines2 :=
        match limit with
        | none => lines
        | some v =>
          if v ≠ 0 ∧ v < (lines.length : Int) then
            pySliceTake v lines ++ [omitMarker ((splitlines text).length - v)]
          else lines
      (joinNL lines2).take 50000

/-- Embedding of `run_write` (v1 line 187, v2 line 142): validate the path,
create parents (implicit here), overwrite, report the byte count. -/
def run_write (workdir : List Str) (fs : FS) (path : Str) (content : Str) : Str × FS :=
  match safe_path workdir path with
  | Except.error m => ((("Error: ").data) ++ m, fs)
  | Except.ok rp =>
    ((("Wrote ").data) ++ (toString content.length).data ++ ((" bytes to ").data) ++ path,
      fsWrite fs rp content)

/-- Embedding of `run_edit` (v1 line 200, v2 line 152): validate the path,
read the file, require `old_text` to occur verbatim, substitute its first
occurrence only. -/
def run_edit (workdir : List Str) (fs : FS) (path : Str) (old_text new_text : Str) : Str × FS :=
  match safe_path workdir path with
  | Except.error m => ((("Error: ").data) ++ m, fs)
  | Except.ok rp =>
    match fsRead fs rp with
    | none => ((("Error: [Errno 2] No such file or directory: ").data) ++ path, fs)
    | some content =>
      if containsSub old_text content then
        ((("Edited ").data) ++ path, fsWrite fs rp (replaceFirst content old_text new_text))
      else
        ((("Error: 未找到要替换的内容 (").data) ++ path ++ ((")").data), fs)

end EasyClaudeCode

namespace EasyClaudeCode

/-! ### The easy_cil shell tool -/

/-- The `DANGER_ZONE` denylist of `easy_cil.py` (line 15). -/
def DANGER_ZONE : List Str :=
  [("rm ").data, ("del ").data, ("rd ").data, ("format").data, ("mkfs").data,
   ("shred").data, ("chmod 777").data, ("chown").data, ("> /dev/").data,
   ("powershell.exe").data, ("reg delete").data, ("taskkill").data, ("shutdown").data,
   (" vim").data, ("nano").data, ("top").data, ("htop").data, (" less").data, (" more").data]

/-- The denylist scan of `run_command` (easy_cil line 25):
`any(danger in cmd.lower() for danger in DANGER_ZONE)` — the command is
lowercased before matching. -/
def cilDangerous (cmd : Str) : Bool :=
  DANGER_ZONE.any (fun danger => containsSub danger (toLowerStr cmd))

/-- Outcome of the easy_cil subprocess call: exit code with captured output
streams, `TimeoutExpired`, or another exception. -/
inductive CilOutcome
  | ok (rc : Int) (stdout stderr : Str)
  | timeout
  | exc (msg : Str)
deriving DecidableEq

/-- The fixed rejection message of `run_command` when the user denies
confirmation (easy_cil line 30). -/
def cilBlockedMsg : Str :=
  ("执行已被用户拦截：出于安全理由，用户拒绝了该命令的执行。").data

/-- The replacement for empty output (easy_cil line 46). -/
def cilNoOutputMsg : Str :=
  ("成功执行（无输出）").data

/-- The truncation marker of `run_command` (easy_cil line 50). -/
def cilTruncMarker : Str :=
  ("\n...(输出过长已截断)").data

/-- Output shaping of `run_command` (easy_cil lines 44–50): empty output is
replaced by a marker, then anything beyond `MAX_OUTPUT_CHARS = 500`
characters is cut and the truncation marker appended. -/
def cilShape (output : Str) : Str :=
  let o := if output = [] then cilNoOutputMsg else output
  if 500 < o.length then o.take 500 ++ cilTruncMarker else o

/-- The post-admission body of `run_command` (easy_cil lines 31–58): run the
subprocess, shape the output, and prefix the exit code.  The prefix uses the
source's literal `\\n` (a backslash and an `n`, not a line break).  The
second component records whether a process was spawned. -/
def cilExecute (exec : Str → CilOutcome) (cmd : Str) : Str × Bool :=
  match exec cmd with
  | CilOutcome.ok rc stdout stderr =>
      ((("[exit ").data) ++ (toString rc).data ++ (("]\\n").data) ++ cilShape (stdout ++ stderr),
        true)
  | CilOutcome.timeout => ((("(timeout after 300s)").data), true)
  | CilOutcome.exc m => ((("执行出错: ").data) ++ m, true)

/-- Embedding of `run_command` (easy_cil line 23): scan the lowercased
command against `DANGER_ZONE`; on a match ask for confirmation
(`input().strip().lower()`, supplied as an oracle string) and refuse with a
fixed message unless it is exactly `y`. -/
def run_command (exec : Str → CilOutcome) (confirmInput : Str) (cmd : Str) : Str × Bool :=
  if cilDangerous cmd then
    if toLowerStr (stripStr confirmInput) ≠ ('y') :: [] then
      (cilBlockedMsg, false)
    else
      cilExecute exec cmd
  else
    cilExecute exec cmd

end EasyClaudeCode

namespace EasyClaudeCode

/-! ### The v2 step machine, loop and task registry -/

/-- A tool call carried by an assistant message: the call id, the tool name
and the raw JSON argument text (`tc.function.arguments`). -/
structure ToolCall where
  id : Str
  name : Str
  arguments : Str
deriving DecidableEq

/-- One conversation turn, as the dicts the sources append to `messages`. -/
inductive Msg
  | system (content : Str)
  | user (content : Str)
  | assistant (content : Str) (tool_calls : List ToolCall)
  | tool (tool_call_id : Str) (content : Str)
deriving DecidableEq

/-- The assistant message a model call returns: optional content plus the
requested tool calls (`None` tool calls are embedded as `[]`, matching the
`if not reply.tool_calls` truthiness test). -/
structure Reply where
  content : Option Str
  tool_calls : List ToolCall
deriving DecidableEq

/-- Outcome of one model transport call: a reply, or an exception with a
message (network/quota failure). -/
abbrev ModelOutcome := Except Str Reply

/-- The v2 system prompt (line 30), parametrized by the rendering of
`WORKDIR`. -/
def SYSTEM (workdirStr : Str) : Str :=
  (("你是一名在目录 ").data) ++ workdirStr ++
    ((" 里的编码 Agent。\n\n异步规则：\n- 每次 step 只做有限工作；需要工具时只执行一次工具调用然后返回。\n- 每步结束必须让出控制权（由外层 loop 统一 await/yield）。\n- 不要猜路径，不确定就先 ls/find。\n- 修改要最小化，不要过度设计。").data)

/-- The task state of `AsyncAgent` (v2 line 177): the `done` flag plus the
`state` dict `{"status", "step", "answer"}` and the conversation. -/
structure AsyncAgent where
  done : Bool
  status : Str
  step : Nat
  answer : Str
  messages : List Msg
deriving DecidableEq

/-- `AsyncAgent.__init__` (v2 line 178). -/
def AsyncAgent.init (workdirStr : Str) (user_prompt : Str) : AsyncAgent :=
  { done := false
  , status := ("running").data
  , step := 0
  , answer := []
  , messages := [Msg.system (SYSTEM workdirStr), Msg.user user_prompt] }

/-- Result of one `step()` call: either normal return with the new agent
state, or an exception escaping `step()`; the carried agent state records
the in-place mutations performed before the raise. -/
inductive StepResult
  | ok (a : AsyncAgent)
  | raised (a : AsyncAgent) (err : Str)
deriving DecidableEq

/-- The agent state a `StepResult` leaves behind. -/
def StepResult.agent : StepResult → AsyncAgent
  | StepResult.ok a => a
  | StepResult.raised a _ => a

/-- Embedding of `AsyncAgent.step` (v2 line 186).  The model transport is
the oracle `model`; `execTool` is the oracle for `execute_tool` (tool name
and raw JSON arguments to output text, abstracting the dispatch to the four
tools over the external filesystem).  The step counter is incremented
before the model call, so a transport failure escapes with the counter
already bumped and everything else untouched. -/
def AsyncAgent.stepFn (execTool : Str → Str → Str) (model : List Msg → ModelOutcome)
    (a0 : AsyncAgent) : StepResult :=
  let a := { a0 with step := a0.step + 1 }
  match model a.messages with
  | Except.error e => StepResult.raised a e
  | Except.ok reply =>
    if reply.tool_calls = [] then
      StepResult.ok
        { a with
          status := ("finished").data
        , answer := reply.content.getD []
        , done := true
        , messages := a.messages ++ [Msg.assistant (reply.content.getD []) []] }
    else
      StepResult.ok
        { a with
          messages :=
            (a.messages ++ [Msg.assistant (reply.content.getD []) reply.tool_calls]) ++
              reply.tool_calls.map
                (fun tc => Msg.tool tc.id (execTool tc.name tc.arguments)) }

/-- Result of driving one task's loop: the loop exited because the agent is
done, an exception escaped the loop, or the step budget ran out. -/
inductive LoopResult
  | finished (a : AsyncAgent)
  | raised (a : AsyncAgent) (err : Str)
  | outOfFuel (a : AsyncAgent)
deriving DecidableEq

/-- The agent state a `LoopResult` leaves behind. -/
def LoopResult.agent : LoopResult → AsyncAgent
  | LoopResult.finished a => a
  | LoopResult.raised a _ => a
  | LoopResult.outOfFuel a => a

/-- Embedding of `agent_loop` (v2 line 225): `while not agent.done: await
agent.step()`, with an explicit step budget making the recursion total.
There is no exception handling: a raise in `step()` ends the loop's task. -/
def agent_loop (execTool : Str → Str → Str) (model : List Msg → ModelOutcome) :
    Nat → AsyncAgent → LoopResult
  | 0, a => LoopResult.outOfFuel a
  | fuel + 1, a =>
    if a.done then LoopResult.finished a
    else
      match a.stepFn execTool model with
      | StepResult.raised a2 e => LoopResult.raised a2 e
      | StepResult.ok a2 => agent_loop execTool model fuel a2

/-- The `TASKS` registry (v2 line 231): task ids mapped to agents. -/
abbrev Tasks := List (Str × AsyncAgent)

/-- What `get_status` (v2 line 242) returns: the task's `state` dict, or the
`task not found` error object. -/
inductive StatusView
  | state (status : Str) (stepCount : Nat) (answer : Str)
  | notFound
deriving DecidableEq

/-- Embedding of `get_status` (v2 line 242). -/
def get_status (tasks : Tasks) (task_id : Str) : StatusView :=
  match tasks.find? (fun e => decide (e.1 = task_id)) with
  | none => StatusView.notFound
  | some e => StatusView.state e.2.status e.2.step e.2.answer

/-- Drive the loop of the task registered under `task_id`, leaving every
other task untouched — each `asyncio` task created by `submit_task` mutates
only its own agent. -/
def driveTask (execTool : Str → Str → Str) (model : List Msg → ModelOutcome)
    (fuel : Nat) (tasks : Tasks) (task_id : Str) : Tasks :=
  tasks.map (fun e =>
    if e.1 = task_id then (e.1, (agent_loop execTool model fuel e.2).agent) else e)

end EasyClaudeCode

namespace EasyClaudeCode

/-! ### Concrete instances used by witnesses and counterexamples -/

/-- A one-component working root. -/
def wd0 : List Str := [("w").data]

/-- A subprocess oracle producing empty output. -/
def exec0 : Str → ExecOutcome := fun _ => ExecOutcome.ok { stdout := [], stderr := [] }

/-- An easy_cil subprocess oracle: exit 0, output `hi`. -/
def cexecHi : Str → CilOutcome := fun _ => CilOutcome.ok 0 (("hi").data) []

/-- A tool-execution oracle returning empty output for every call. -/
def exec0Tool : Str → Str → Str := fun _ _ => []

/-- A terminal (finished) agent, as left behind by a completed task. -/
def doneAgent : AsyncAgent :=
  { done := true
  , status := ("finished").data
  , step := 1
  , answer := ("done").data
  , messages := [Msg.system [], Msg.user (("hi").data), Msg.assistant (("done").data) []] }

/-- A model oracle that always answers without tool calls. -/
def modelPlain : List Msg → ModelOutcome :=
  fun _ => Except.ok { content := some (("again").data), tool_calls := [] }

/-- A model oracle whose transport always fails. -/
def modelBoom : List Msg → ModelOutcome :=
  fun _ => Except.error (("boom").data)

/-- A freshly submitted task. -/
def agentC1 : AsyncAgent := AsyncAgent.init (("/w").data) (("hi").data)

/-- A subprocess output one character over the 50000-character budget. -/
def bigA : Str := List.replicate 50001 ('a')

/-- A subprocess oracle producing the over-budget output `bigA`. -/
def execBig : Str → ExecOutcome := fun _ => ExecOutcome.ok { stdout := bigA, stderr := [] }

/-- A benign command matching no denylist entry. -/
def cmdEcho : Str := ("echo hi").data

end EasyClaudeCode

namespace EasyClaudeCode

/-! ### Helper lemmas -/

/-- Every list is an initial segment of itself. -/
theorem startsWith_refl {α : Type} [DecidableEq α] : ∀ l : List α, startsWith l l = true
  | [] => rfl
  | a :: as => by simp [startsWith, startsWith_refl as]

/-- Reading back the file just written returns the written content. -/
theorem fsRead_fsWrite_self (fs : FS) (rp : List Str) (c : Str) :
    fsRead (fsWrite fs rp c) rp = some c := by
  simp [fsRead, fsWrite, List.find?]

/-- `dropWhile` keeps a replicated list whose element fails the predicate. -/
theorem dropWhile_replicate_of_not {α : Type} (p : α → Bool) (a : α) (h : p a = false) :
    ∀ n : Nat, List.dropWhile p (List.replicate n a) = List.replicate n a
  | 0 => rfl
  | n + 1 => by simp [List.replicate_succ, List.dropWhile_cons, h]

/-- `strip` keeps a replicated list of a non-whitespace character. -/
theorem stripStr_replicate (c : Char) (h : Char.isWhitespace c = false) (n : Nat) :
    stripStr (List.replicate n c) = List.replicate n c := by
  simp [stripStr, dropWhile_replicate_of_not _ _ h, List.reverse_replicate]

/-- What a successful `findSubGo` search means: the needle occurs at the
reported index (relative to the start offset) and nowhere earlier. -/
theorem findSubGo_spec (needle : Str) :
    ∀ (hay : Str) (k i : Nat), findSubGo needle hay k = some i →
      k ≤ i ∧ startsWith needle (hay.drop (i - k)) = true ∧
        ∀ j, j < i - k → startsWith needle (hay.drop j) = false := by
  intro hay
  induction hay with
  | nil =>
    intro k i h
    unfold findSubGo at h
    by_cases hs : startsWith needle [] = true
    · simp [hs] at h
      subst h
      refine ⟨Nat.le_refl _, by simpa using hs, ?_⟩
      intro j hj
      omega
    · simp [Bool.not_eq_true] at hs
      simp [hs] at h
  | cons a t ih =>
    intro k i h
    unfold findSubGo at h
    by_cases hs : startsWith needle (a :: t) = true
    · simp [hs] at h
      subst h
      refine ⟨Nat.le_refl _, by simpa using hs, ?_⟩
      intro j hj
      omega
    · simp [Bool.not_eq_true] at hs
      simp [hs] at h
      obtain ⟨hk, hat, hfirst⟩ := ih (k + 1) i h
      refine ⟨by omega, ?_, ?_⟩
      · have : i - k = (i - (k + 1)) + 1 := by omega
        rw [this]
        simpa using hat
      · intro j hj
        cases j with
        | zero => simpa using hs
        | succ j2 =>
          have : j2 < i - (k + 1) := by omega
          simpa using hfirst j2 this

/-- What a successful `findSub` search means: the first occurrence. -/
theorem findSub_spec (needle hay : Str) (i : Nat) (h : findSub needle hay = some i) :
    startsWith needle (hay.drop i) = true ∧
      ∀ j, j < i → startsWith needle (hay.drop j) = false := by
  have hg := findSubGo_spec needle hay 0 i h
  obtain ⟨-, h1, h2⟩ := hg
  simp at h1 h2
  exact ⟨h1, h2⟩

/-- Searching a key-preserving transform of the registry finds the
transform of what the plain search finds. -/
theorem find?_key_map (f : Str × AsyncAgent → Str × AsyncAgent)
    (hf : ∀ e, (f e).1 = e.1) (tid2 : Str) :
    ∀ tasks : Tasks,
      List.find? (fun e => decide (e.1 = tid2)) (tasks.map f) =
        Option.map f (List.find? (fun e => decide (e.1 = tid2)) tasks) := by
  intro tasks
  induction tasks with
  | nil => rfl
  | cons e rest ih =>
    by_cases he : e.1 = tid2
    · simp [List.find?, hf, he]
    · simp [List.find?, hf, he, ih]

/-- Driving one task leaves the status of every other task unchanged. -/
theorem get_status_driveTask_other (execTool : Str → Str → Str)
    (model : List Msg → ModelOutcome) (fuel : Nat) (tid tid2 : Str)
    (hne : tid ≠ tid2) (tasks : Tasks) :
    get_status (driveTask execTool model fuel tasks tid) tid2 =
      get_status tasks tid2 := by
  have hf : ∀ e : Str × AsyncAgent,
      ((if e.1 = tid then (e.1, (agent_loop execTool model fuel e.2).agent) else e)).1 = e.1 := by
    intro e
    by_cases h : e.1 = tid <;> simp [h]
  unfold get_status driveTask
  rw [find?_key_map _ hf]
  cases hfind : List.find? (fun e => decide (e.1 = tid2)) tasks with
  | none => rfl
  | some e =>
    have hkey : e.1 = tid2 := by
      have := List.find?_some hfind
      simpa using this
    have hnt : e.1 ≠ tid := by
      rw [hkey]
      exact fun hc => hne hc.symm
    have hid : (if e.1 = tid then (e.1, (agent_loop execTool model fuel e.2).agent) else e) = e := by
      simp [hnt]
    simp [hid]

end EasyClaudeCode

namespace EasyClaudeCode

/-! ### Claim theorems -/

/-- C2 (confirmed): every path argument that (joined with the working root
and normalized) resolves outside the working root makes `read_file`,
`write_file` and `edit_file` return the path-violation text — the
`ValueError` of `safe_path` caught and rendered as `Error: ...` — rather
than raising out of the tool, and the filesystem is not mutated. -/
theorem c2_path_containment
    (workdir : List Str) (fs : FS) (p : Str) (content old new : Str) (lim : Option Int)
    (hout : startsWith workdir (resolvedTarget workdir p) = false) :
    run_read workdir fs p lim = (("Error: ").data) ++ ((("路径越界：").data) ++ p)
    ∧ run_write workdir fs p content =
        ((("Error: ").data) ++ ((("路径越界：").data) ++ p), fs)
    ∧ run_edit workdir fs p old new =
        ((("Error: ").data) ++ ((("路径越界：").data) ++ p), fs) := by
  have hsafe : safe_path workdir p = Except.error ((("路径越界：").data) ++ p) := by
    simp [safe_path, hout]
  exact ⟨by simp [run_read, hsafe], by simp [run_write, hsafe], by simp [run_edit, hsafe]⟩

/-- Witness for C2 at the escaping relative path `..` under root `w`. -/
theorem c2_path_containment_witness :
    startsWith wd0 (resolvedTarget wd0 (("..").data)) = false
    ∧ (run_read wd0 [] (("..").data) none =
          (("Error: ").data) ++ ((("路径越界：").data) ++ ("..").data)
       ∧ run_write wd0 [] (("..").data) (("x").data) =
          ((("Error: ").data) ++ ((("路径越界：").data) ++ ("..").data), [])
       ∧ run_edit wd0 [] (("..").data) (("a").data) (("b").data) =
          ((("Error: ").data) ++ ((("路径越界：").data) ++ ("..").data), [])) :=
  ⟨by decide,
   c2_path_containment wd0 [] (("..").data) (("x").data) (("a").data) (("b").data) none
     (by decide)⟩

/-- C8 (confirmed): `edit_file` replaces exactly the first occurrence of
`old` (the needle occurs at the replaced index and at no earlier index) and
returns an explicit target-not-found error, with no mutation, when `old`
does not occur; in particular, once `old` no longer occurs after a
successful edit, the identical second call fails with that error and leaves
the file as the first call wrote it. -/
theorem c8_edit_first_occurrence
    (workdir : List Str) (fs fs2 : FS) (p : Str) (old new : Str)
    (rp : List Str) (content c2 : Str) (i j : Nat)
    (hsafe : safe_path workdir p = Except.ok rp)
    (hread : fsRead fs rp = some content)
    (hfind : findSub old content = some i)
    (hj : j < i)
    (hr2 : fsRead fs2 rp = some c2)
    (habs : containsSub old c2 = false)
    (hgone : containsSub old (content.take i ++ new ++ content.drop (i + old.length)) = false) :
    run_edit workdir fs p old new =
      ((("Edited ").data) ++ p,
        fsWrite fs rp (content.take i ++ new ++ content.drop (i + old.length)))
    ∧ startsWith old (content.drop i) = true
    ∧ startsWith old (content.drop j) = false
    ∧ run_edit workdir fs2 p old new =
        ((("Error: 未找到要替换的内容 (").data) ++ p ++ ((")").data), fs2)
    ∧ run_edit workdir (fsWrite fs rp (content.take i ++ new ++ content.drop (i + old.length)))
        p old new =
        ((("Error: 未找到要替换的内容 (").data) ++ p ++ ((")").data),
          fsWrite fs rp (content.take i ++ new ++ content.drop (i + old.length))) := by
  have hcont : containsSub old content = true := by
    simp [containsSub, hfind]
  obtain ⟨hat, hfirst⟩ := findSub_spec old content i hfind
  refine ⟨?_, hat, hfirst j hj, ?_, ?_⟩
  · simp [run_edit, hsafe, hread, hcont, replaceFirst, hfind]
  · simp [run_edit, hsafe, hr2, habs]
  · have hgone2 : containsSub old
        (content.take i ++ (new ++ content.drop (i + old.length))) = false := by
      simpa [List.append_assoc] using hgone
    simp [run_edit, hsafe, fsRead_fsWrite_self, hgone2]

/-- Witness for C8: editing `xab` with `old = ab`, `new = cd` replaces the
occurrence at index 1, and the identical second call fails. -/
theorem c8_edit_first_occurrence_witness :
    safe_path wd0 (("f").data) = Except.ok [("w").data, ("f").data]
    ∧ fsRead [([("w").data, ("f").data], ("xab").data)] [("w").data, ("f").data] =
        some (("xab").data)
    ∧ findSub (("ab").data) (("xab").data) = some 1
    ∧ 0 < 1
    ∧ fsRead [([("w").data, ("f").data], ("q").data)] [("w").data, ("f").data] =
        some (("q").data)
    ∧ containsSub (("ab").data) (("q").data) = false
    ∧ containsSub (("ab").data)
        ((("xab").data).take 1 ++ (("cd").data) ++ (("xab").data).drop (1 + (("ab").data).length))
        = false
    ∧ (run_edit wd0 [([("w").data, ("f").data], ("xab").data)] (("f").data)
          (("ab").data) (("cd").data) =
        ((("Edited ").data) ++ ("f").data,
          fsWrite [([("w").data, ("f").data], ("xab").data)] [("w").data, ("f").data]
            ((("xab").data).take 1 ++ (("cd").data) ++
              (("xab").data).drop (1 + (("ab").data).length)))
       ∧ startsWith (("ab").data) ((("xab").data).drop 1) = true
       ∧ startsWith (("ab").data) ((("xab").data).drop 0) = false
       ∧ run_edit wd0 [([("w").data, ("f").data], ("q").data)] (("f").data)
            (("ab").data) (("cd").data) =
          ((("Error: 未找到要替换的内容 (").data) ++ ("f").data ++ ((")").data),
            [([("w").data, ("f").data], ("q").data)])
       ∧ run_edit wd0
            (fsWrite [([("w").data, ("f").data], ("xab").data)] [("w").data, ("f").data]
              ((("xab").data).take 1 ++ (("cd").data) ++
                (("xab").data).drop (1 + (("ab").data).length)))
            (("f").data) (("ab").data) (("cd").data) =
          ((("Error: 未找到要替换的内容 (").data) ++ ("f").data ++ ((")").data),
            fsWrite [([("w").data, ("f").data], ("xab").data)] [("w").data, ("f").data]
              ((("xab").data).take 1 ++ (("cd").data) ++
                (("xab").data).drop (1 + (("ab").data).length)))) :=
  ⟨by decide, by decide, by decide, by decide, by decide, by decide, by decide,
   c8_edit_first_occurrence wd0
     [([("w").data, ("f").data], ("xab").data)]
     [([("w").data, ("f").data], ("q").data)]
     (("f").data) (("ab").data) (("cd").data)
     [("w").data, ("f").data] (("xab").data) (("q").data) 1 0
     (by decide) (by decide) (by decide) (by decide) (by decide) (by decide) (by decide)⟩

end EasyClaudeCode

namespace EasyClaudeCode

/-- C6 (confirmed): when the model response carries no tool calls, a single
`step()` appends it as the final assistant turn, sets the status to
`finished`, records the answer and sets `done`; a freshly submitted task
whose model response requests no tools therefore goes from `running` to
`finished` after exactly one step of `agent_loop`, with step counter 1. -/
theorem c6_no_tools_single_step
    (execTool : Str → Str → Str) (model : List Msg → ModelOutcome)
    (wd prompt : Str) (r : Reply) (fuel : Nat)
    (hm : model (AsyncAgent.init wd prompt).messages = Except.ok r)
    (hnt : r.tool_calls = []) :
    (AsyncAgent.init wd prompt).stepFn execTool model =
      StepResult.ok
        { done := true
        , status := ("finished").data
        , step := 1
        , answer := r.content.getD []
        , messages := (AsyncAgent.init wd prompt).messages
            ++ [Msg.assistant (r.content.getD []) []] }
    ∧ agent_loop execTool model (fuel + 2) (AsyncAgent.init wd prompt) =
        LoopResult.finished
          { done := true
          , status := ("finished").data
          , step := 1
          , answer := r.content.getD []
          , messages := (AsyncAgent.init wd prompt).messages
              ++ [Msg.assistant (r.content.getD []) []] }
    ∧ (AsyncAgent.init wd prompt).status = ("running").data := by
  have hstep : (AsyncAgent.init wd prompt).stepFn execTool model =
      StepResult.ok
        { done := true
        , status := ("finished").data
        , step := 1
        , answer := r.content.getD []
        , messages := (AsyncAgent.init wd prompt).messages
            ++ [Msg.assistant (r.content.getD []) []] } := by
    unfold AsyncAgent.stepFn
    simp only [AsyncAgent.init] at hm ⊢
    rw [hm]
    simp [hnt]
  refine ⟨hstep, ?_, rfl⟩
  show agent_loop execTool model (fuel + 1 + 1) (AsyncAgent.init wd prompt) = _
  unfold agent_loop
  rw [show (AsyncAgent.init wd prompt).done = false from rfl]
  simp only [Bool.false_eq_true, if_false, hstep]
  unfold agent_loop
  rfl

/-- Witness for C6: a fresh task under a tool-free model oracle. -/
theorem c6_no_tools_single_step_witness :
    modelPlain (AsyncAgent.init (("/w").data) (("hi").data)).messages =
      Except.ok { content := some (("again").data), tool_calls := [] }
    ∧ (({ content := some (("again").data), tool_calls := [] } : Reply).tool_calls = []
       ∧ ((AsyncAgent.init (("/w").data) (("hi").data)).stepFn exec0Tool modelPlain =
            StepResult.ok
              { done := true
              , status := ("finished").data
              , step := 1
              , answer := (({ content := some (("again").data), tool_calls := [] } :
                  Reply)).content.getD []
              , messages := (AsyncAgent.init (("/w").data) (("hi").data)).messages
                  ++ [Msg.assistant ((({ content := some (("again").data), tool_calls := [] } :
                      Reply)).content.getD []) []] }
          ∧ agent_loop exec0Tool modelPlain (0 + 2) (AsyncAgent.init (("/w").data) (("hi").data)) =
              LoopResult.finished
                { done := true
                , status := ("finished").data
                , step := 1
                , answer := (({ content := some (("again").data), tool_calls := [] } :
                    Reply)).content.getD []
                , messages := (AsyncAgent.init (("/w").data) (("hi").data)).messages
                    ++ [Msg.assistant ((({ content := some (("again").data), tool_calls := [] } :
                        Reply)).content.getD []) []] }
          ∧ (AsyncAgent.init (("/w").data) (("hi").data)).status = ("running").data)) :=
  ⟨rfl, rfl,
   c6_no_tools_single_step exec0Tool modelPlain (("/w").data) (("hi").data)
     { content := some (("again").data), tool_calls := [] } 0 rfl rfl⟩

end EasyClaudeCode

namespace EasyClaudeCode

/-- C5 counterexample: `step()` invoked on a task already in the terminal
`finished` state is not a no-op — it bumps the step counter from 1 to 2 and
overwrites the recorded answer, because `AsyncAgent.step` has no
terminal-state guard. -/
theorem c5_counterexample :
    doneAgent.done = true
    ∧ doneAgent.status = ("finished").data
    ∧ (doneAgent.stepFn exec0Tool modelPlain).agent.step = 2
    ∧ doneAgent.step = 1
    ∧ (doneAgent.stepFn exec0Tool modelPlain).agent.answer = ("again").data
    ∧ doneAgent.answer = ("done").data := by
  decide

/-- C5 (corrected): the guard lives in the scheduler, not in `step()` —
`agent_loop` returns a terminal (`done`) task unchanged without invoking
`step()`, and `step()` itself can only leave the status unchanged or set it
to `finished`, so under the scheduler no task mutates after a terminal
state and no task re-enters `running`. -/
theorem c5_terminal_guard
    (execTool : Str → Str → Str) (model : List Msg → ModelOutcome)
    (a b : AsyncAgent) (fuel : Nat)
    (hdone : a.done = true) (hfuel : 0 < fuel) :
    agent_loop execTool model fuel a = LoopResult.finished a
    ∧ ((b.stepFn execTool model).agent.status = b.status
       ∨ (b.stepFn execTool model).agent.status = ("finished").data) := by
  constructor
  · cases fuel with
    | zero => omega
    | succ n =>
      unfold agent_loop
      simp [hdone]
  · cases hm : model b.messages with
    | error e =>
      unfold AsyncAgent.stepFn
      simp [hm, StepResult.agent]
    | ok r =>
      unfold AsyncAgent.stepFn
      by_cases ht : r.tool_calls = []
      · simp [hm, ht, StepResult.agent]
      · simp [hm, ht, StepResult.agent]

/-- Witness for C5 at a concrete finished task and one unit of fuel. -/
theorem c5_terminal_guard_witness :
    doneAgent.done = true
    ∧ 0 < 1
    ∧ (agent_loop exec0Tool modelPlain 1 doneAgent = LoopResult.finished doneAgent
       ∧ ((doneAgent.stepFn exec0Tool modelPlain).agent.status = doneAgent.status
          ∨ (doneAgent.stepFn exec0Tool modelPlain).agent.status = ("finished").data)) :=
  ⟨by decide, by decide,
   c5_terminal_guard exec0Tool modelPlain doneAgent doneAgent 1 (by decide) (by decide)⟩

/-- C1 counterexample: a transport error inside `step()` leaves the fresh
task's status at `running` — not `failed` — and records no error in the
state, because `step()` and `agent_loop` catch nothing. -/
theorem c1_counterexample :
    agentC1.status = ("running").data
    ∧ (agentC1.stepFn exec0Tool modelBoom).agent.status = ("running").data
    ∧ (("running").data : Str) ≠ ("failed").data
    ∧ (agentC1.stepFn exec0Tool modelBoom).agent.answer = []
    ∧ (agentC1.stepFn exec0Tool modelBoom) =
        StepResult.raised { agentC1 with step := agentC1.step + 1 } (("boom").data) := by
  refine ⟨rfl, rfl, by decide, rfl, rfl⟩

/-- C1 (corrected): an unrecoverable model-transport error escapes `step()`
with only the step counter already bumped — status, answer and conversation
are untouched, so the task stays `running` forever and the error is never
recorded — the exception ends that task's `agent_loop`, and driving one
task never changes the status of any other task. -/
theorem c1_transport_error_escapes
    (execTool : Str → Str → Str) (model : List Msg → ModelOutcome)
    (a : AsyncAgent) (e : Str) (fuel : Nat) (tasks : Tasks) (tid tid2 : Str)
    (herr : model a.messages = Except.error e)
    (hrun : a.done = false) (hne : tid ≠ tid2) :
    a.stepFn execTool model = StepResult.raised { a with step := a.step + 1 } e
    ∧ agent_loop execTool model (fuel + 1) a =
        LoopResult.raised { a with step := a.step + 1 } e
    ∧ get_status (driveTask execTool model (fuel + 1) tasks tid) tid2 =
        get_status tasks tid2 := by
  have hstep : a.stepFn execTool model = StepResult.raised { a with step := a.step + 1 } e := by
    unfold AsyncAgent.stepFn
    simp [herr]
  refine ⟨hstep, ?_, ?_⟩
  · unfold agent_loop
    simp [hrun, hstep]
  · exact get_status_driveTask_other execTool model (fuel + 1) tid tid2 hne tasks

/-- Witness for C1: a failing transport on a fresh task, next to an
unrelated registered task. -/
theorem c1_transport_error_escapes_witness :
    modelBoom agentC1.messages = Except.error (("boom").data)
    ∧ agentC1.done = false
    ∧ (("t1").data : Str) ≠ ("t2").data
    ∧ (agentC1.stepFn exec0Tool modelBoom =
          StepResult.raised { agentC1 with step := agentC1.step + 1 } (("boom").data)
       ∧ agent_loop exec0Tool modelBoom (0 + 1) agentC1 =
          LoopResult.raised { agentC1 with step := agentC1.step + 1 } (("boom").data)
       ∧ get_status
            (driveTask exec0Tool modelBoom (0 + 1) [(("t2").data, doneAgent)] (("t1").data))
            (("t2").data) =
          get_status [(("t2").data, doneAgent)] (("t2").data)) :=
  ⟨rfl, rfl, by decide,
   c1_transport_error_escapes exec0Tool modelBoom agentC1 (("boom").data) 0
     [(("t2").data, doneAgent)] (("t1").data) (("t2").data) rfl rfl (by decide)⟩

end EasyClaudeCode

namespace EasyClaudeCode

/-- C3 counterexample: `SUDO ls` contains the denylisted pattern `sudo`
case-insensitively, yet `run_bash` — whose scan does not lowercase the
command — misses it and silently spawns the process, so the scan is not
case-insensitive. -/
theorem c3_counterexample :
    containsSub (("sudo").data) (toLowerStr (("SUDO ls").data)) = true
    ∧ v2Matches (("SUDO ls").data) = false
    ∧ (run_bash exec0 (("SUDO ls").data)).2 = true
    ∧ v2Matches (("sudo ls").data) = true := by
  decide

/-- C3 (corrected): only easy_cil's scan is case-insensitive (it depends
only on the lowercased command); v2's `run_bash` scans case-sensitively.
Both gate matched commands without silent execution: `run_bash` rejects a
match outright with a fixed message and spawns nothing, and easy_cil's
`run_command` spawns nothing and returns its fixed rejection message
whenever confirmation is not exactly `y`. -/
theorem c3_denylist_gating
    (cmd conf c c2 : Str) (exec : Str → ExecOutcome) (cexec : Str → CilOutcome)
    (hv2 : v2Matches cmd = true) (hcil : cilDangerous cmd = true)
    (hdeny : toLowerStr (stripStr conf) ≠ ('y') :: [])
    (hlow : toLowerStr c = toLowerStr c2) :
    run_bash exec cmd = ((("Error: 危险命令已拦截").data), false)
    ∧ run_command cexec conf cmd = (cilBlockedMsg, false)
    ∧ cilDangerous c = cilDangerous c2 := by
  refine ⟨?_, ?_, ?_⟩
  · simp [run_bash, hv2]
  · simp [run_command, hcil, hdeny]
  · simp [cilDangerous, hlow]

/-- Witness for C3 at `sudo shutdown` with confirmation input `n`, and the
case-insensitivity instance `SHUTDOWN` versus `shutdown`. -/
theorem c3_denylist_gating_witness :
    v2Matches (("sudo shutdown").data) = true
    ∧ cilDangerous (("sudo shutdown").data) = true
    ∧ toLowerStr (stripStr (("n").data)) ≠ ('y') :: []
    ∧ toLowerStr (("SHUTDOWN").data) = toLowerStr (("shutdown").data)
    ∧ (run_bash exec0 (("sudo shutdown").data) = ((("Error: 危险命令已拦截").data), false)
       ∧ run_command cexecHi (("n").data) (("sudo shutdown").data) = (cilBlockedMsg, false)
       ∧ cilDangerous (("SHUTDOWN").data) = cilDangerous (("shutdown").data)) :=
  ⟨by decide, by decide, by decide, by decide,
   c3_denylist_gating (("sudo shutdown").data) (("n").data) (("SHUTDOWN").data)
     (("shutdown").data) exec0 cexecHi (by decide) (by decide) (by decide) (by decide)⟩

/-- C7 counterexample: writing `a\n` to a file and reading it back returns
`a` — the trailing newline is lost because `run_read` rejoins
`splitlines` output — although `a\n` is far below the truncation bound. -/
theorem c7_counterexample :
    run_read wd0 (run_write wd0 [] (("f").data) (("a\n").data)).2 (("f").data) none =
      ('a') :: []
    ∧ (('a') :: [] : Str) ≠ (("a\n").data)
    ∧ (("a\n").data : Str).length ≤ 50000 := by
  decide

/-- C7 (corrected): for every in-root path, `write_file(p, X)` followed by
`read_file(p)` with no limit returns the lines of `X` rejoined with `\n`
(so `X` itself only up to newline normalization and trailing-newline loss),
truncated to 50000 characters. -/
theorem c7_round_trip_modulo_newlines
    (workdir : List Str) (fs : FS) (p : Str) (x : Str) (rp : List Str)
    (hsafe : safe_path workdir p = Except.ok rp) :
    run_read workdir (run_write workdir fs p x).2 p none =
      (joinNL (splitlines x)).take 50000 := by
  simp [run_write, hsafe, run_read, fsRead_fsWrite_self]

/-- Witness for C7 on a two-line file under the root `w`. -/
theorem c7_round_trip_modulo_newlines_witness :
    safe_path wd0 (("f").data) = Except.ok [("w").data, ("f").data]
    ∧ run_read wd0 (run_write wd0 [] (("f").data) (("a\nb").data)).2 (("f").data) none =
        (joinNL (splitlines (("a\nb").data))).take 50000 :=
  ⟨by decide,
   c7_round_trip_modulo_newlines wd0 [] (("f").data) (("a\nb").data)
     [("w").data, ("f").data] (by decide)⟩

end EasyClaudeCode

namespace EasyClaudeCode

/-- C4 counterexample: a 50001-character subprocess output makes `run_bash`
return exactly the first 50000 characters with nothing appended — no
truncation marker of any kind can make the claimed shape match. -/
theorem c4_counterexample :
    50000 < (bigA : Str).length
    ∧ (run_bash execBig cmdEcho).1 = List.replicate 50000 ('a')
    ∧ ¬ ∃ marker : Str, marker ≠ [] ∧
        (run_bash execBig cmdEcho).1 = bigA.take 50000 ++ marker := by
  have hstrip : stripStr bigA = bigA := by
    rw [bigA]
    exact stripStr_replicate _ (by decide) _
  have hne : bigA ≠ [] := by
    intro h
    have hl := congrArg List.length h
    simp only [bigA, List.length_replicate, List.length_nil] at hl
    omega
  have htake : bigA.take 50000 = List.replicate 50000 ('a') := by
    rw [bigA, List.take_replicate]
    norm_num
  have hdanger : v2Matches cmdEcho = false := by decide
  have heval : (run_bash execBig cmdEcho).1 = List.replicate 50000 ('a') := by
    rw [run_bash]
    simp only [hdanger, Bool.false_eq_true, if_false]
    show (v2Shape (stripStr (bigA ++ [])), true).1 = _
    rw [List.append_nil, hstrip, v2Shape, if_neg hne, htake]
  refine ⟨?_, heval, ?_⟩
  · simp only [bigA, List.length_replicate]
    omega
  · rintro ⟨m, hm, hEq⟩
    rw [heval, htake] at hEq
    have hlen := congrArg List.length hEq
    rw [List.length_append, List.length_replicate] at hlen
    have hm0 : m.length = 0 := by omega
    exact hm (List.length_eq_zero.mp hm0)

/-- C4 (corrected): the two implementations truncate differently — v2's
`run_bash` (and `run_read`) cut to the first 50000 characters with no
marker, while easy_cil's `run_command` keeps the first 500 characters and
appends its truncation marker, inside a result prefixed with the exit
code; outputs within budget pass through the shaping unmodified. -/
theorem c4_truncation_shapes
    (big small : Str) (exec : Str → ExecOutcome) (cmd : Str) (r : ExecResult)
    (cexec : Str → CilOutcome) (cmd2 : Str) (rc : Int) (so se : Str)
    (hbig5 : 500 < big.length) (hbig50 : 50000 < big.length)
    (hsmall : small ≠ []) (hsmall5 : small.length ≤ 500)
    (hnd : v2Matches cmd = false) (hex : exec cmd = ExecOutcome.ok r)
    (hcx : cexec cmd2 = CilOutcome.ok rc so se) :
    v2Shape big = big.take 50000
    ∧ v2Shape small = small
    ∧ cilShape big = big.take 500 ++ cilTruncMarker
    ∧ cilShape small = small
    ∧ run_bash exec cmd = (v2Shape (stripStr (r.stdout ++ r.stderr)), true)
    ∧ cilExecute cexec cmd2 =
        ((("[exit ").data) ++ (toString rc).data ++ (("]\\n").data) ++ cilShape (so ++ se),
          true) := by
  have hbigne : big ≠ [] := by
    intro h
    rw [h] at hbig50
    simp at hbig50
  refine ⟨?_, ?_, ?_, ?_, ?_, ?_⟩
  · rw [v2Shape, if_neg hbigne]
  · rw [v2Shape, if_neg hsmall, List.take_of_length_le (by omega)]
  · simp only [cilShape]
    rw [if_neg hbigne, if_pos hbig5]
  · simp only [cilShape]
    rw [if_neg hsmall, if_neg (show ¬ 500 < small.length by omega)]
  · simp [run_bash, hnd, hex]
  · simp [cilExecute, hcx]

/-- Witness for C4 with a 50001-character output and the short output `hi`. -/
theorem c4_truncation_shapes_witness :
    500 < (bigA : Str).length
    ∧ 50000 < (bigA : Str).length
    ∧ (("hi").data : Str) ≠ []
    ∧ (("hi").data : Str).length ≤ 500
    ∧ v2Matches cmdEcho = false
    ∧ execBig cmdEcho = ExecOutcome.ok { stdout := bigA, stderr := [] }
    ∧ cexecHi (("ls").data) = CilOutcome.ok 0 (("hi").data) []
    ∧ (v2Shape bigA = bigA.take 50000
       ∧ v2Shape (("hi").data) = ("hi").data
       ∧ cilShape bigA = bigA.take 500 ++ cilTruncMarker
       ∧ cilShape (("hi").data) = ("hi").data
       ∧ run_bash execBig cmdEcho =
          (v2Shape (stripStr (({ stdout := bigA, stderr := [] } : ExecResult).stdout ++
            ({ stdout := bigA, stderr := [] } : ExecResult).stderr)), true)
       ∧ cilExecute cexecHi (("ls").data) =
          ((("[exit ").data) ++ (toString (0 : Int)).data ++ (("]\\n").data) ++
            cilShape ((("hi").data) ++ []), true)) :=
  ⟨by simp only [bigA, List.length_replicate]; omega, by simp only [bigA, List.length_replicate]; omega, by decide, by decide, by decide, rfl, rfl,
   c4_truncation_shapes bigA (("hi").data) execBig cmdEcho
     { stdout := bigA, stderr := [] } cexecHi (("ls").data) 0 (("hi").data) []
     (by simp only [bigA, List.length_replicate]; omega) (by simp only [bigA, List.length_replicate]; omega) (by decide) (by decide) (by decide) rfl rfl⟩

/-- C9 counterexample: reading an empty file returns the empty string, not
any explicit no-output marker. -/
theorem c9_counterexample :
    run_read wd0 [([("w").data, ("f").data], [])] (("f").data) none = []
    ∧ ([] : Str) ≠ ("(no output)").data := by
  decide

/-- C9 (corrected): only the shell tool substitutes a marker — `run_bash`
returns `(no output)` whenever the stripped subprocess output is empty —
while `run_read` returns the empty string for an empty file. -/
theorem c9_empty_output
    (exec : Str → ExecOutcome) (cmd : Str) (r : ExecResult)
    (workdir : List Str) (fs : FS) (p : Str) (rp : List Str)
    (hnd : v2Matches cmd = false) (hex : exec cmd = ExecOutcome.ok r)
    (hempty : stripStr (r.stdout ++ r.stderr) = [])
    (hsafe : safe_path workdir p = Except.ok rp) (hread : fsRead fs rp = some []) :
    run_bash exec cmd = ((("(no output)").data), true)
    ∧ run_read workdir fs p none = [] := by
  constructor
  · simp [run_bash, hnd, hex, hempty, v2Shape]
  · simp [run_read, hsafe, hread, splitlines, joinNL, List.intercalate]

/-- Witness for C9: an empty-output subprocess and an empty file. -/
theorem c9_empty_output_witness :
    v2Matches cmdEcho = false
    ∧ exec0 cmdEcho = ExecOutcome.ok { stdout := [], stderr := [] }
    ∧ stripStr ((({ stdout := [], stderr := [] } : ExecResult)).stdout ++
        (({ stdout := [], stderr := [] } : ExecResult)).stderr) = []
    ∧ safe_path wd0 (("f").data) = Except.ok [("w").data, ("f").data]
    ∧ fsRead [([("w").data, ("f").data], [])] [("w").data, ("f").data] = some []
    ∧ (run_bash exec0 cmdEcho = ((("(no output)").data), true)
       ∧ run_read wd0 [([("w").data, ("f").data], [])] (("f").data) none = []) :=
  ⟨by decide, rfl, by decide, by decide, by decide,
   c9_empty_output exec0 cmdEcho { stdout := [], stderr := [] } wd0
     [([("w").data, ("f").data], [])] (("f").data) [("w").data, ("f").data]
     (by decide) rfl (by decide) (by decide) (by decide)⟩

end EasyClaudeCode

namespace EasyClaudeCode

/-- C10 counterexample: on a two-line file, the negative limit `-1` also
triggers the omitted-lines marker (claiming 3 lines omitted), although
`0 < -1` is false — the marker is not appended only when
`0 < limit < number of lines`. -/
theorem c10_counterexample :
    run_read wd0 [([("w").data, ("f").data], ("a\nb").data)] (("f").data) (some (-1)) =
      ("a\n... (还有 3 行)").data
    ∧ ¬ (0 : Int) < -1 := by
  decide

/-- C10 (corrected): a limit of 0 is Python-falsy, so `read_file` behaves
exactly as with no limit; and for any limit `k` with `0 < k < number of
lines`, the result is the first `k` lines plus a marker stating exactly
`total − k` omitted lines (a nonzero negative limit also triggers the
marker branch, as the counterexample shows). -/
theorem c10_limit_semantics
    (workdir : List Str) (fs : FS) (p : Str) (rp : List Str) (text : Str) (k : Int)
    (hsafe : safe_path workdir p = Except.ok rp) (hread : fsRead fs rp = some text)
    (hk0 : 0 < k) (hkn : k < ((splitlines text).length : Int)) :
    run_read workdir fs p (some 0) = run_read workdir fs p none
    ∧ run_read workdir fs p (some k) =
        (joinNL ((splitlines text).take k.toNat ++
          [omitMarker (((splitlines text).length : Int) - k)])).take 50000 := by
  constructor
  · simp [run_read, hsafe, hread]
  · have hcond : k ≠ 0 ∧ k < ((splitlines text).length : Int) := ⟨by omega, hkn⟩
    simp only [run_read, hsafe, hread]
    rw [if_pos hcond, pySliceTake, if_pos (le_of_lt hk0)]

/-- Witness for C10 on the two-line file `a\nb` with limit 1. -/
theorem c10_limit_semantics_witness :
    safe_path wd0 (("f").data) = Except.ok [("w").data, ("f").data]
    ∧ fsRead [([("w").data, ("f").data], ("a\nb").data)] [("w").data, ("f").data] =
        some (("a\nb").data)
    ∧ (0 : Int) < 1
    ∧ (1 : Int) < ((splitlines (("a\nb").data)).length : Int)
    ∧ (run_read wd0 [([("w").data, ("f").data], ("a\nb").data)] (("f").data) (some 0) =
          run_read wd0 [([("w").data, ("f").data], ("a\nb").data)] (("f").data) none
       ∧ run_read wd0 [([("w").data, ("f").data], ("a\nb").data)] (("f").data) (some 1) =
          (joinNL ((splitlines (("a\nb").data)).take (1 : Int).toNat ++
            [omitMarker (((splitlines (("a\nb").data)).length : Int) - 1)])).take 50000) :=
  ⟨by decide, by decide, by decide, by decide,
   c10_limit_semantics wd0 [([("w").data, ("f").data], ("a\nb").data)] (("f").data)
     [("w").data, ("f").data] (("a\nb").data) 1
     (by decide) (by decide) (by decide) (by decide)⟩

end EasyClaudeCode
